import Mathlib

/-!
Verification of the onetimesecret-go client library (package `ots`).

The embedding below translates the Go source into Lean:
  * `Json` models parsed JSON documents (numbers are modelled as integers,
    which covers every field of the API: all numeric fields are Go `int`/`int64`).
  * `Secret`, `Health`, `Client` mirror the Go structs of `ots/ots.go` and the
    evolved copy of the same file shipped in the repository (the version that
    decodes `/status` responses through the `Health` struct).
  * The decode functions follow Go `encoding/json` semantics for these struct
    types: object keys are matched against the effective field names (the
    lowercase json tags for `Secret`, the bare field name `Status` for
    `Health`) first exactly and otherwise case-insensitively; a JSON `null`
    for a string/int/bool field is a no-op, for a slice field it clears the
    slice; a wrong-typed value is a decode error; unknown keys are ignored;
    later duplicate keys overwrite earlier ones (the fold processes keys in
    order).  Unmarshalling into a `*Secret` / `*Health` / `*Secrets` target
    maps JSON `null` to a nil pointer (`Option.none`).
  * Request construction (`createURI`, `Values.set`, `Values.encode`,
    the per-operation request builders) mirrors `net/url` form encoding:
    `url.Values.Set` replaces the key, `Encode` sorts keys and
    percent-escapes keys and values (space becomes `+`, unreserved ASCII
    bytes are kept, every other byte becomes `%XX` with uppercase hex).
  * Response handling (`postProcess`, `recentProcess`, `statusProcess`, …)
    models each operation's handling of a received HTTP response: the status
    code, the parse of the body bytes that were obtained (`none` when the
    bytes are not valid JSON) and an optional body-read error.
-/

namespace OTS

/-- Parsed JSON documents.  `num` models integral JSON numbers, which is the
only numeric shape the OneTimeSecret API and the Go structs use. -/
inductive Json where
  | null
  | bool (b : Bool)
  | num (n : Int)
  | str (s : String)
  | arr (elems : List Json)
  | obj (fields : List (String × Json))
  deriving Repr

/-- Lowercase an ASCII letter, leave every other character unchanged. -/
def asciiLowerChar (c : Char) : Char :=
  if 65 ≤ c.toNat ∧ c.toNat ≤ 90 then Char.ofNat (c.toNat + 32) else c

/-- ASCII case folding of a string (models Go's case-insensitive JSON key
matching for the ASCII field names used by this package). -/
def asciiLower (s : String) : String :=
  String.mk (s.data.map asciiLowerChar)

/-- Go `encoding/json` key matching: a JSON object key `k` selects the struct
field with effective name `name` if it matches exactly or case-insensitively. -/
def keyMatches (k name : String) : Bool :=
  k == name || asciiLower k == asciiLower name

/-- The `Secret` struct of the `ots` package (response shape of the API).
Field defaults are the Go zero values a freshly allocated `Secret` holds. -/
structure Secret where
  CustomerID : String := ""
  MetadataKey : String := ""
  SecretKey : String := ""
  Value : String := ""
  State : String := ""
  Recipient : List String := []
  TTL : Int := 0
  MetadataTTL : Int := 0
  SecretTTL : Int := 0
  Created : Int := 0
  Updated : Int := 0
  PassphraseRequired : Bool := false
  deriving Repr, DecidableEq

/-- The `Health` struct used to decode the `/status` response
(`Status string`, no json tag, so its effective key is `Status`). -/
structure Health where
  Status : String := ""
  deriving Repr, DecidableEq

/-- The `Client` struct: stored basic-auth credentials. -/
structure Client where
  Username : String
  Token : String
  deriving Repr, DecidableEq

/-- Unmarshal a JSON value into a Go `string` field holding `old`:
strings are taken, `null` is a no-op, anything else is a type error. -/
def setStr (v : Json) (old : String) : Except String String :=
  match v with
  | .str x => .ok x
  | .null => .ok old
  | _ => .error "json: cannot unmarshal value into Go string"

/-- Unmarshal a JSON value into a Go `int`/`int64` field holding `old`. -/
def setInt (v : Json) (old : Int) : Except String Int :=
  match v with
  | .num n => .ok n
  | .null => .ok old
  | _ => .error "json: cannot unmarshal value into Go int"

/-- Unmarshal a JSON value into a Go `bool` field holding `old`. -/
def setBool (v : Json) (old : Bool) : Except String Bool :=
  match v with
  | .bool b => .ok b
  | .null => .ok old
  | _ => .error "json: cannot unmarshal value into Go bool"

/-- Unmarshal a JSON array's elements into a Go `[]string`. -/
def decodeStrList : List Json → Except String (List String)
  | [] => .ok []
  | .str s :: rest =>
    match decodeStrList rest with
    | .ok l => .ok (s :: l)
    | .error e => .error e
  | _ :: _ => .error "json: cannot unmarshal value into Go string"

/-- Unmarshal a JSON value into a Go `[]string` field:
an array of strings is taken, `null` sets the slice to nil. -/
def setStrList (v : Json) (old : List String) : Except String (List String) :=
  match v with
  | .arr xs => decodeStrList xs
  | .null => .ok []
  | _ =>
    let _ := old
    .error "json: cannot unmarshal value into Go slice"

/-- Assign one JSON object entry to the matching field of a `Secret`
(effective field names are the lowercase json tags of the struct);
keys matching no field are ignored, as `encoding/json` does. -/
def assignSecretField (s : Secret) (k : String) (v : Json) : Except String Secret :=
  if keyMatches k "custid" then
    match setStr v s.CustomerID with
    | .ok x => .ok { s with CustomerID := x }
    | .error e => .error e
  else if keyMatches k "metadata_key" then
    match setStr v s.MetadataKey with
    | .ok x => .ok { s with MetadataKey := x }
    | .error e => .error e
  else if keyMatches k "secret_key" then
    match setStr v s.SecretKey with
    | .ok x => .ok { s with SecretKey := x }
    | .error e => .error e
  else if keyMatches k "value" then
    match setStr v s.Value with
    | .ok x => .ok { s with Value := x }
    | .error e => .error e
  else if keyMatches k "state" then
    match setStr v s.State with
    | .ok x => .ok { s with State := x }
    | .error e => .error e
  else if keyMatches k "recipient" then
    match setStrList v s.Recipient with
    | .ok x => .ok { s with Recipient := x }
    | .error e => .error e
  else if keyMatches k "ttl" then
    match setInt v s.TTL with
    | .ok x => .ok { s with TTL := x }
    | .error e => .error e
  else if keyMatches k "metadata_ttl" then
    match setInt v s.MetadataTTL with
    | .ok x => .ok { s with MetadataTTL := x }
    | .error e => .error e
  else if keyMatches k "secret_ttl" then
    match setInt v s.SecretTTL with
    | .ok x => .ok { s with SecretTTL := x }
    | .error e => .error e
  else if keyMatches k "created" then
    match setInt v s.Created with
    | .ok x => .ok { s with Created := x }
    | .error e => .error e
  else if keyMatches k "updated" then
    match setInt v s.Updated with
    | .ok x => .ok { s with Updated := x }
    | .error e => .error e
  else if keyMatches k "passphrase_required" then
    match setBool v s.PassphraseRequired with
    | .ok x => .ok { s with PassphraseRequired := x }
    | .error e => .error e
  else
    .ok s

/-- Process the entries of a JSON object in order against a `Secret`
(later duplicate keys overwrite earlier ones). -/
def decodeSecretFields (s : Secret) : List (String × Json) → Except String Secret
  | [] => .ok s
  | (k, v) :: rest =>
    match assignSecretField s k v with
    | .ok s1 => decodeSecretFields s1 rest
    | .error e => .error e

/-- Unmarshal a JSON object into a freshly zeroed `Secret`. -/
def decodeSecretObj (fs : List (String × Json)) : Except String Secret :=
  decodeSecretFields {} fs

/-- `json.Unmarshal(body, &otsResponse)` with `otsResponse : *Secret`:
a body that is not valid JSON is a decode error, JSON `null` leaves the
pointer nil, a JSON object allocates and fills a `Secret`, any other
JSON value is a type error. -/
def unmarshalSecretPtr : Option Json → Except String (Option Secret)
  | none => .error "invalid character in JSON input"
  | some .null => .ok none
  | some (.obj fs) =>
    match decodeSecretObj fs with
    | .ok s => .ok (some s)
    | .error e => .error e
  | some _ => .error "json: cannot unmarshal value into Go value of type ots.Secret"

/-- Unmarshal one element of a JSON array into a `Secret` value
(`null` leaves the element zeroed, per `encoding/json`). -/
def decodeSecretElem : Json → Except String Secret
  | .obj fs => decodeSecretObj fs
  | .null => .ok {}
  | _ => .error "json: cannot unmarshal value into Go value of type ots.Secret"

/-- Unmarshal the elements of a JSON array into a Go `[]Secret`. -/
def decodeSecretElems : List Json → Except String (List Secret)
  | [] => .ok []
  | j :: rest =>
    match decodeSecretElem j with
    | .ok s =>
      match decodeSecretElems rest with
      | .ok l => .ok (s :: l)
      | .error e => .error e
    | .error e => .error e

/-- `json.Unmarshal(body, &otsResponse)` with `otsResponse : *Secrets`. -/
def unmarshalSecretsPtr : Option Json → Except String (Option (List Secret))
  | none => .error "invalid character in JSON input"
  | some .null => .ok none
  | some (.arr xs) =>
    match decodeSecretElems xs with
    | .ok l => .ok (some l)
    | .error e => .error e
  | some _ => .error "json: cannot unmarshal value into Go value of type ots.Secrets"

/-- Assign one JSON object entry to the matching field of a `Health`
(the single field `Status` has no json tag, so its effective key is
`Status`, matched case-insensitively against wire keys like `status`). -/
def assignHealthField (h : Health) (k : String) (v : Json) : Except String Health :=
  if keyMatches k "Status" then
    match setStr v h.Status with
    | .ok x => .ok { Status := x }
    | .error e => .error e
  else
    .ok h

/-- Process the entries of a JSON object in order against a `Health`. -/
def decodeHealthFields (h : Health) : List (String × Json) → Except String Health
  | [] => .ok h
  | (k, v) :: rest =>
    match assignHealthField h k v with
    | .ok h1 => decodeHealthFields h1 rest
    | .error e => .error e

/-- `json.Unmarshal(body, &h)` with `h : *Health`. -/
def unmarshalHealthPtr : Option Json → Except String (Option Health)
  | none => .error "invalid character in JSON input"
  | some .null => .ok none
  | some (.obj fs) =>
    match decodeHealthFields {} fs with
    | .ok h => .ok (some h)
    | .error e => .error e
  | some _ => .error "json: cannot unmarshal value into Go value of type ots.Health"

/-! ### Request construction (`net/url` form encoding, URL building) -/

/-- Uppercase hexadecimal digit for `n < 16`. -/
def hexDigitUpper (n : Nat) : Char :=
  if n < 10 then Char.ofNat (48 + n) else Char.ofNat (55 + n)

/-- The UTF-8 encoding of one character, as byte values. -/
def charUtf8Bytes (c : Char) : List Nat :=
  if c.toNat < 128 then [c.toNat]
  else if c.toNat < 2048 then
    [192 + c.toNat / 64, 128 + c.toNat % 64]
  else if c.toNat < 65536 then
    [224 + c.toNat / 4096, 128 + c.toNat / 64 % 64, 128 + c.toNat % 64]
  else
    [240 + c.toNat / 262144, 128 + c.toNat / 4096 % 64,
     128 + c.toNat / 64 % 64, 128 + c.toNat % 64]

/-- The UTF-8 bytes of a string. -/
def utf8Bytes (s : String) : List Nat :=
  s.data.flatMap charUtf8Bytes

/-- Bytes `url.QueryEscape` leaves unescaped in a query component:
ASCII letters, digits, and `-`, `_`, `.`, `~`. -/
def isUnreservedByte (b : Nat) : Bool :=
  (65 ≤ b && b ≤ 90) || (97 ≤ b && b ≤ 122) || (48 ≤ b && b ≤ 57) ||
  b == 45 || b == 95 || b == 46 || b == 126

/-- Escape one byte of a query component: space becomes `+`, unreserved
bytes are kept, every other byte becomes `%XX` with uppercase hex. -/
def escapeByte (b : Nat) : String :=
  if b == 32 then "+"
  else if isUnreservedByte b then String.singleton (Char.ofNat b)
  else String.mk ['%', hexDigitUpper (b / 16), hexDigitUpper (b % 16)]

/-- `url.QueryEscape`: escape the UTF-8 bytes of a string for use in a
form-encoded body. -/
def queryEscape (s : String) : String :=
  String.join ((utf8Bytes s).map escapeByte)

/-- Lexicographic order on codepoint sequences.  UTF-8 preserves codepoint
order byte-wise, so this is exactly the byte order Go's `sort.Strings`
uses on the form keys. -/
def charListLt : List Char → List Char → Bool
  | [], [] => false
  | [], _ :: _ => true
  | _ :: _, [] => false
  | a :: as, b :: bs =>
    if a.toNat < b.toNat then true
    else if b.toNat < a.toNat then false
    else charListLt as bs

/-- Byte order on strings (the sort order of `url.Values.Encode`). -/
def keyLt (a b : String) : Bool := charListLt a.data b.data

/-- `url.Values`: a collection of form keys and values.  The Go type is a
map with single-element value lists here (`Set` is the only writer used by
the package), modelled as an association list; `Values.encode` sorts by key,
so the representation order is irrelevant to the produced body. -/
def Values : Type := List (String × String)

/-- The empty `url.Values{}`. -/
def Values.empty : Values := []

/-- `url.Values.Set`: replaces any existing entries for the key. -/
def Values.set (v : Values) (key val : String) : Values :=
  v.filter (fun p => p.1 != key) ++ [(key, val)]

/-- Insert an entry into a list sorted by key. -/
def insertByKey (p : String × String) : List (String × String) → List (String × String)
  | [] => [p]
  | q :: qs => if keyLt p.1 q.1 then p :: q :: qs else q :: insertByKey p qs

/-- Sort form entries by key (as `url.Values.Encode` does). -/
def sortByKey : List (String × String) → List (String × String)
  | [] => []
  | p :: ps => insertByKey p (sortByKey ps)

/-- `url.Values.Encode`: sort by key, escape keys and values, join as
`k1=v1&k2=v2&…`. -/
def Values.encode (v : Values) : String :=
  String.intercalate "&"
    ((sortByKey v).map (fun p => queryEscape p.1 ++ "=" ++ queryEscape p.2))

/-- `strconv.Itoa`: decimal rendering of an integer. -/
def itoa (i : Int) : String := toString i

/-- The fixed base URL of the API (`const base` in the source). -/
def base : String := "https://onetimesecret.com/api/v1"

/-- `createURI`: join the fixed base with a relative route. -/
def createURI (s : String) : String := base ++ "/" ++ s

/-- An HTTP request as the client builds it: method, absolute URL, optional
form-encoded body (`none` models a nil body reader) and the basic-auth
credentials attached with `req.SetBasicAuth`. -/
structure Request where
  method : String
  url : String
  body : Option String
  auth : Option (String × String)
  deriving Repr, DecidableEq

/-- The request built by the shared dispatch routine `postRequest`:
POST to the base joined with the route, with basic auth attached. -/
def postRequestReq (c : Client) (routePath : String) (body : Option String) : Request :=
  { method := "POST", url := createURI routePath, body := body,
    auth := some (c.Username, c.Token) }

/-- The request built by `Status`: GET to the fixed status route with
basic auth attached. -/
def statusRequest (c : Client) : Request :=
  { method := "GET", url := createURI "status", body := none,
    auth := some (c.Username, c.Token) }

/-- The form values `Create` assembles. -/
def createValues (secret passphrase recipient : String) (ttl : Int) : Values :=
  ((((Values.empty.set "secret" secret).set "passphrase" passphrase).set
      "ttl" (itoa ttl)).set "recipient" recipient)

/-- The single request issued by `Create`: the form-encoded values POSTed
to the fixed `share` route through the shared dispatch routine. -/
def createRequest (c : Client) (secret passphrase recipient : String) (ttl : Int) : Request :=
  postRequestReq c "share" (some (Values.encode (createValues secret passphrase recipient ttl)))

/-- The form values `Generate` assembles. -/
def generateValues (passphrase recipient : String) (ttl : Int) : Values :=
  (((Values.empty.set "passphrase" passphrase).set "ttl" (itoa ttl)).set
      "recipient" recipient)

/-- The single request issued by `Generate`. -/
def generateRequest (c : Client) (recipient passphrase : String) (ttl : Int) : Request :=
  postRequestReq c "generate" (some (Values.encode (generateValues passphrase recipient ttl)))

/-- The form values `Retrieve` assembles: the secret key again, plus the
passphrase. -/
def retrieveValues (secretKey passphrase : String) : Values :=
  (Values.empty.set "secret_key" secretKey).set "passphrase" passphrase

/-- The single request issued by `Retrieve`: POST to `secret/{secretKey}`. -/
def retrieveRequest (c : Client) (secretKey passphrase : String) : Request :=
  postRequestReq c ("secret/" ++ secretKey)
    (some (Values.encode (retrieveValues secretKey passphrase)))

/-- The single request issued by `RetrieveMetadata`: POST with nil body. -/
def retrieveMetadataRequest (c : Client) (metadataKey : String) : Request :=
  postRequestReq c ("private/" ++ metadataKey) none

/-- The single request issued by `Burn`: POST with nil body. -/
def burnRequest (c : Client) (metadataKey : String) : Request :=
  postRequestReq c ("private/" ++ metadataKey ++ "/burn") none

/-- The single request issued by `RetrieveRecentMetadata`: GET with
basic auth attached. -/
def retrieveRecentMetadataRequest (c : Client) : Request :=
  { method := "GET", url := createURI "private/recent", body := none,
    auth := some (c.Username, c.Token) }

/-! ### Response handling -/

/-- A received HTTP response as the operations observe it: the status code,
the parse of the body bytes that were obtained (`none` when those bytes are
not valid JSON) and, when reading the body failed, the read error
(`ioutil.ReadAll` also returns the bytes read before the failure, so `body`
still carries their parse). -/
structure HttpResponse where
  statusCode : Nat
  body : Option Json
  readErr : Option String

/-- The response handling of the shared dispatch routine `postRequest` in the
evolved copy of the client (and of the open-coded POST operations of the
earlier copy): a body-read failure is returned, then the body is unmarshalled
into a `*Secret`; on any error the returned record is nil. -/
def postProcess (resp : HttpResponse) : Except String (Option Secret) :=
  match resp.readErr with
  | some e => .error e
  | none => unmarshalSecretPtr resp.body

/-- The response handling of `postRequest` in `ots/ots.go` (lines 358-371):
a body-read failure is only logged — the routine continues and unmarshals
whatever bytes were read, so the read error is never returned. -/
def postProcessOtsGo (resp : HttpResponse) : Except String (Option Secret) :=
  unmarshalSecretPtr resp.body

/-- `Create` returns `postRequest`'s result unchanged. -/
def createProcess (resp : HttpResponse) : Except String (Option Secret) :=
  postProcess resp

/-- `Generate` returns `postRequest`'s result unchanged. -/
def generateProcess (resp : HttpResponse) : Except String (Option Secret) :=
  postProcess resp

/-- `Retrieve` returns `postRequest`'s result unchanged. -/
def retrieveProcess (resp : HttpResponse) : Except String (Option Secret) :=
  postProcess resp

/-- `RetrieveMetadata` returns `postRequest`'s result unchanged. -/
def retrieveMetadataProcess (resp : HttpResponse) : Except String (Option Secret) :=
  postProcess resp

/-- `Burn` returns `postRequest`'s result unchanged. -/
def burnProcess (resp : HttpResponse) : Except String (Option Secret) :=
  postProcess resp

/-- The response handling of `RetrieveRecentMetadata`: read errors are
returned, then the body is unmarshalled into a `*Secrets`. -/
def recentProcess (resp : HttpResponse) : Except String (Option (List Secret)) :=
  match resp.readErr with
  | some e => .error e
  | none => unmarshalSecretsPtr resp.body

/-- The message `Status` returns when the service reports itself offline. -/
def offlineMsg : String := "server is offline, try again later"

/-- The response handling of `Status` in the evolved copy of the client:
the body is unmarshalled into a `*Health` and the `Status` field is compared
against `"offline"`.  The result is `none` when the function does not return
at all: a JSON `null` body leaves the `*Health` pointer nil and the
`h.Status` access dereferences nil. -/
def statusProcess (resp : HttpResponse) : Option (Except String Unit) :=
  match resp.readErr with
  | some e => some (.error e)
  | none =>
    match unmarshalHealthPtr resp.body with
    | .error e => some (.error e)
    | .ok none => none
    | .ok (some h) =>
      if h.Status == "offline" then some (.error offlineMsg) else some (.ok ())

/-- The response handling of `Status` in `ots/ots.go` (lines 71-80): the raw
body string is compared against `"offline"` with no JSON decoding. -/
def statusProcessRaw (rawBody : String) : Except String Unit :=
  if rawBody == "offline" then .error offlineMsg else .ok ()

/-! ### Marshalling (`json.Marshal` of a `Secret`, used for round-trips) -/

/-- Emit a string field under `omitempty`: omitted when it is the zero
value `""`. -/
def emitStr (name : String) (x : String) : List (String × Json) :=
  if x = "" then [] else [(name, .str x)]

/-- Emit an int field under `omitempty`: omitted when it is `0`. -/
def emitInt (name : String) (x : Int) : List (String × Json) :=
  if x = 0 then [] else [(name, .num x)]

/-- Emit a slice field under `omitempty`: omitted when it is empty. -/
def emitStrList (name : String) (x : List String) : List (String × Json) :=
  if x = [] then [] else [(name, .arr (x.map Json.str))]

/-- Emit a bool field under `omitempty`: omitted when it is `false`. -/
def emitBool (name : String) (x : Bool) : List (String × Json) :=
  if x = false then [] else [(name, .bool x)]

/-- `json.Marshal` of a `Secret`: fields in struct order, each under its
json tag with `omitempty`. -/
def marshalSecret (s : Secret) : Json :=
  .obj (emitStr "custid" s.CustomerID ++
       (emitStr "metadata_key" s.MetadataKey ++
       (emitStr "secret_key" s.SecretKey ++
       (emitStr "value" s.Value ++
       (emitStr "state" s.State ++
       (emitStrList "recipient" s.Recipient ++
       (emitInt "ttl" s.TTL ++
       (emitInt "metadata_ttl" s.MetadataTTL ++
       (emitInt "secret_ttl" s.SecretTTL ++
       (emitInt "created" s.Created ++
       (emitInt "updated" s.Updated ++
        emitBool "passphrase_required" s.PassphraseRequired)))))))))))

/-! ### Helper lemmas -/

/-- Decoding a JSON-string array produced from a string list gives back the
list (element for element, in order). -/
theorem decodeStrList_map (x : List String) :
    decodeStrList (x.map Json.str) = .ok x := by
  induction x with
  | nil => rfl
  | cons a as ih => simp only [List.map_cons, decodeStrList, ih]

/-- One step of the object-decoding fold, given the assignment's result. -/
theorem decodeSecretFields_cons (s s1 : Secret) (k : String) (v : Json)
    (rest : List (String × Json)) (ha : assignSecretField s k v = .ok s1) :
    decodeSecretFields s ((k, v) :: rest) = decodeSecretFields s1 rest := by
  simp only [decodeSecretFields, ha]

/-- Assigning the `recipient` key with an encoded string list. -/
theorem assign_recipient (s : Secret) (x : List String) :
    assignSecretField s "recipient" (Json.arr (x.map Json.str))
      = .ok { s with Recipient := x } := by
  show (match decodeStrList (x.map Json.str) with
        | .ok y => Except.ok { s with Recipient := y }
        | .error e => (Except.error e : Except String Secret)) = _
  rw [decodeStrList_map]

theorem decodeFields_emit_custid (s : Secret) (x : String) (rest : List (String × Json))
    (h : s.CustomerID = "") :
    decodeSecretFields s (emitStr "custid" x ++ rest)
      = decodeSecretFields { s with CustomerID := x } rest := by
  by_cases hx : x = ""
  · subst hx
    obtain ⟨c1, c2, c3, c4, c5, c6, c7, c8, c9, c10, c11, c12⟩ := s
    have h2 : c1 = "" := h
    subst h2
    rfl
  · simp only [emitStr, if_neg hx, List.singleton_append]
    exact decodeSecretFields_cons _ _ _ _ _ rfl

theorem decodeFields_emit_metadata_key (s : Secret) (x : String) (rest : List (String × Json))
    (h : s.MetadataKey = "") :
    decodeSecretFields s (emitStr "metadata_key" x ++ rest)
      = decodeSecretFields { s with MetadataKey := x } rest := by
  by_cases hx : x = ""
  · subst hx
    obtain ⟨c1, c2, c3, c4, c5, c6, c7, c8, c9, c10, c11, c12⟩ := s
    have h2 : c2 = "" := h
    subst h2
    rfl
  · simp only [emitStr, if_neg hx, List.singleton_append]
    exact decodeSecretFields_cons _ _ _ _ _ rfl

theorem decodeFields_emit_secret_key (s : Secret) (x : String) (rest : List (String × Json))
    (h : s.SecretKey = "") :
    decodeSecretFields s (emitStr "secret_key" x ++ rest)
      = decodeSecretFields { s with SecretKey := x } rest := by
  by_cases hx : x = ""
  · subst hx
    obtain ⟨c1, c2, c3, c4, c5, c6, c7, c8, c9, c10, c11, c12⟩ := s
    have h2 : c3 = "" := h
    subst h2
    rfl
  · simp only [emitStr, if_neg hx, List.singleton_append]
    exact decodeSecretFields_cons _ _ _ _ _ rfl

theorem decodeFields_emit_value (s : Secret) (x : String) (rest : List (String × Json))
    (h : s.Value = "") :
    decodeSecretFields s (emitStr "value" x ++ rest)
      = decodeSecretFields { s with Value := x } rest := by
  by_cases hx : x = ""
  · subst hx
    obtain ⟨c1, c2, c3, c4, c5, c6, c7, c8, c9, c10, c11, c12⟩ := s
    have h2 : c4 = "" := h
    subst h2
    rfl
  · simp only [emitStr, if_neg hx, List.singleton_append]
    exact decodeSecretFields_cons _ _ _ _ _ rfl

theorem decodeFields_emit_state (s : Secret) (x : String) (rest : List (String × Json))
    (h : s.State = "") :
    decodeSecretFields s (emitStr "state" x ++ rest)
      = decodeSecretFields { s with State := x } rest := by
  by_cases hx : x = ""
  · subst hx
    obtain ⟨c1, c2, c3, c4, c5, c6, c7, c8, c9, c10, c11, c12⟩ := s
    have h2 : c5 = "" := h
    subst h2
    rfl
  · simp only [emitStr, if_neg hx, List.singleton_append]
    exact decodeSecretFields_cons _ _ _ _ _ rfl

theorem decodeFields_emit_recipient (s : Secret) (x : List String) (rest : List (String × Json))
    (h : s.Recipient = []) :
    decodeSecretFields s (emitStrList "recipient" x ++ rest)
      = decodeSecretFields { s with Recipient := x } rest := by
  by_cases hx : x = []
  · subst hx
    obtain ⟨c1, c2, c3, c4, c5, c6, c7, c8, c9, c10, c11, c12⟩ := s
    have h2 : c6 = [] := h
    subst h2
    rfl
  · simp only [emitStrList, if_neg hx, List.singleton_append]
    exact decodeSecretFields_cons _ _ _ _ _ (assign_recipient s x)

theorem decodeFields_emit_ttl (s : Secret) (x : Int) (rest : List (String × Json))
    (h : s.TTL = 0) :
    decodeSecretFields s (emitInt "ttl" x ++ rest)
      = decodeSecretFields { s with TTL := x } rest := by
  by_cases hx : x = 0
  · subst hx
    obtain ⟨c1, c2, c3, c4, c5, c6, c7, c8, c9, c10, c11, c12⟩ := s
    have h2 : c7 = 0 := h
    subst h2
    rfl
  · simp only [emitInt, if_neg hx, List.singleton_append]
    exact decodeSecretFields_cons _ _ _ _ _ rfl

theorem decodeFields_emit_metadata_ttl (s : Secret) (x : Int) (rest : List (String × Json))
    (h : s.MetadataTTL = 0) :
    decodeSecretFields s (emitInt "metadata_ttl" x ++ rest)
      = decodeSecretFields { s with MetadataTTL := x } rest := by
  by_cases hx : x = 0
  · subst hx
    obtain ⟨c1, c2, c3, c4, c5, c6, c7, c8, c9, c10, c11, c12⟩ := s
    have h2 : c8 = 0 := h
    subst h2
    rfl
  · simp only [emitInt, if_neg hx, List.singleton_append]
    exact decodeSecretFields_cons _ _ _ _ _ rfl

theorem decodeFields_emit_secret_ttl (s : Secret) (x : Int) (rest : List (String × Json))
    (h : s.SecretTTL = 0) :
    decodeSecretFields s (emitInt "secret_ttl" x ++ rest)
      = decodeSecretFields { s with SecretTTL := x } rest := by
  by_cases hx : x = 0
  · subst hx
    obtain ⟨c1, c2, c3, c4, c5, c6, c7, c8, c9, c10, c11, c12⟩ := s
    have h2 : c9 = 0 := h
    subst h2
    rfl
  · simp only [emitInt, if_neg hx, List.singleton_append]
    exact decodeSecretFields_cons _ _ _ _ _ rfl

theorem decodeFields_emit_created (s : Secret) (x : Int) (rest : List (String × Json))
    (h : s.Created = 0) :
    decodeSecretFields s (emitInt "created" x ++ rest)
      = decodeSecretFields { s with Created := x } rest := by
  by_cases hx : x = 0
  · subst hx
    obtain ⟨c1, c2, c3, c4, c5, c6, c7, c8, c9, c10, c11, c12⟩ := s
    have h2 : c10 = 0 := h
    subst h2
    rfl
  · simp only [emitInt, if_neg hx, List.singleton_append]
    exact decodeSecretFields_cons _ _ _ _ _ rfl

theorem decodeFields_emit_updated (s : Secret) (x : Int) (rest : List (String × Json))
    (h : s.Updated = 0) :
    decodeSecretFields s (emitInt "updated" x ++ rest)
      = decodeSecretFields { s with Updated := x } rest := by
  by_cases hx : x = 0
  · subst hx
    obtain ⟨c1, c2, c3, c4, c5, c6, c7, c8, c9, c10, c11, c12⟩ := s
    have h2 : c11 = 0 := h
    subst h2
    rfl
  · simp only [emitInt, if_neg hx, List.singleton_append]
    exact decodeSecretFields_cons _ _ _ _ _ rfl

theorem decodeFields_emit_passreq (s : Secret) (x : Bool)
    (h : s.PassphraseRequired = false) :
    decodeSecretFields s (emitBool "passphrase_required" x)
      = .ok { s with PassphraseRequired := x } := by
  by_cases hx : x = false
  · subst hx
    obtain ⟨c1, c2, c3, c4, c5, c6, c7, c8, c9, c10, c11, c12⟩ := s
    have h2 : c12 = false := h
    subst h2
    rfl
  · simp only [emitBool, if_neg hx]
    rfl

/-- An assignment for a key that does not select the `ttl` field leaves the
`TTL` component unchanged. -/
theorem assignSecretField_preserves_TTL (s : Secret) (k : String) (v : Json) (s1 : Secret)
    (hk : keyMatches k "ttl" = false) (ha : assignSecretField s k v = .ok s1) :
    s1.TTL = s.TTL := by
  have hknot : ¬(keyMatches k "ttl" = true) := by simp [hk]
  simp only [assignSecretField] at ha
  by_cases h1 : keyMatches k "custid" = true
  · rw [if_pos h1] at ha
    cases hsv : setStr v s.CustomerID with
    | error e => rw [hsv] at ha; cases ha
    | ok x => rw [hsv] at ha; cases ha; rfl
  · rw [if_neg h1] at ha
    by_cases h2 : keyMatches k "metadata_key" = true
    · rw [if_pos h2] at ha
      cases hsv : setStr v s.MetadataKey with
      | error e => rw [hsv] at ha; cases ha
      | ok x => rw [hsv] at ha; cases ha; rfl
    · rw [if_neg h2] at ha
      by_cases h3 : keyMatches k "secret_key" = true
      · rw [if_pos h3] at ha
        cases hsv : setStr v s.SecretKey with
        | error e => rw [hsv] at ha; cases ha
        | ok x => rw [hsv] at ha; cases ha; rfl
      · rw [if_neg h3] at ha
        by_cases h4 : keyMatches k "value" = true
        · rw [if_pos h4] at ha
          cases hsv : setStr v s.Value with
          | error e => rw [hsv] at ha; cases ha
          | ok x => rw [hsv] at ha; cases ha; rfl
        · rw [if_neg h4] at ha
          by_cases h5 : keyMatches k "state" = true
          · rw [if_pos h5] at ha
            cases hsv : setStr v s.State with
            | error e => rw [hsv] at ha; cases ha
            | ok x => rw [hsv] at ha; cases ha; rfl
          · rw [if_neg h5] at ha
            by_cases h6 : keyMatches k "recipient" = true
            · rw [if_pos h6] at ha
              cases hsv : setStrList v s.Recipient with
              | error e => rw [hsv] at ha; cases ha
              | ok x => rw [hsv] at ha; cases ha; rfl
            · rw [if_neg h6, if_neg hknot] at ha
              by_cases h8 : keyMatches k "metadata_ttl" = true
              · rw [if_pos h8] at ha
                cases hsv : setInt v s.MetadataTTL with
                | error e => rw [hsv] at ha; cases ha
                | ok x => rw [hsv] at ha; cases ha; rfl
              · rw [if_neg h8] at ha
                by_cases h9 : keyMatches k "secret_ttl" = true
                · rw [if_pos h9] at ha
                  cases hsv : setInt v s.SecretTTL with
                  | error e => rw [hsv] at ha; cases ha
                  | ok x => rw [hsv] at ha; cases ha; rfl
                · rw [if_neg h9] at ha
                  by_cases h10 : keyMatches k "created" = true
                  · rw [if_pos h10] at ha
                    cases hsv : setInt v s.Created with
                    | error e => rw [hsv] at ha; cases ha
                    | ok x => rw [hsv] at ha; cases ha; rfl
                  · rw [if_neg h10] at ha
                    by_cases h11 : keyMatches k "updated" = true
                    · rw [if_pos h11] at ha
                      cases hsv : setInt v s.Updated with
                      | error e => rw [hsv] at ha; cases ha
                      | ok x => rw [hsv] at ha; cases ha; rfl
                    · rw [if_neg h11] at ha
                      by_cases h12 : keyMatches k "passphrase_required" = true
                      · rw [if_pos h12] at ha
                        cases hsv : setBool v s.PassphraseRequired with
                        | error e => rw [hsv] at ha; cases ha
                        | ok x => rw [hsv] at ha; cases ha; rfl
                      · rw [if_neg h12] at ha
                        cases ha
                        rfl

/-- Folding object entries none of which selects the `ttl` field leaves the
`TTL` component unchanged. -/
theorem decodeSecretFields_preserves_TTL :
    ∀ (fs : List (String × Json)) (s s1 : Secret),
      (∀ p ∈ fs, keyMatches p.1 "ttl" = false) →
      decodeSecretFields s fs = .ok s1 → s1.TTL = s.TTL := by
  intro fs
  induction fs with
  | nil =>
    intro s s1 _ h
    simp only [decodeSecretFields] at h
    cases h
    rfl
  | cons p rest ih =>
    intro s s1 hk h
    obtain ⟨k, v⟩ := p
    simp only [decodeSecretFields] at h
    cases ha : assignSecretField s k v with
    | error e => rw [ha] at h; cases h
    | ok s2 =>
      rw [ha] at h
      have h1 := ih s2 s1 (fun q hq => hk q (List.mem_cons_of_mem _ hq)) h
      have h2 := assignSecretField_preserves_TTL s k v s2
        (hk (k, v) (List.mem_cons_self _ _)) ha
      rw [h1, h2]

/-! ### Claim theorems -/

/-- C1: For every response body received by the Status operation that decodes
to a health classification, Status returns an error exactly when that
classification equals `"offline"` (a ServiceUnavailable-kind error), and
returns no error for any other classification, including unexpected values.
The final conjunct states the same property for the raw-comparison variant of
`Status` in `ots/ots.go`, where the classification is the raw body string. -/
theorem status_error_iff_offline (resp : HttpResponse) (h : Health)
    (hre : resp.readErr = none)
    (hd : unmarshalHealthPtr resp.body = .ok (some h)) :
    (statusProcess resp = some (.error offlineMsg) ↔ h.Status = "offline")
    ∧ (h.Status ≠ "offline" → statusProcess resp = some (.ok ()))
    ∧ (∀ rawBody : String,
        statusProcessRaw rawBody = .error offlineMsg ↔ rawBody = "offline") := by
  refine ⟨?_, ?_, ?_⟩
  · simp only [statusProcess, hre, hd]
    by_cases hS : h.Status = "offline"
    · simp [hS]
    · simp [hS]
  · intro hS
    simp only [statusProcess, hre, hd]
    simp [hS]
  · intro rawBody
    by_cases hb : rawBody = "offline"
    · simp [statusProcessRaw, hb]
    · simp [statusProcessRaw, hb, offlineMsg]

/-- C1 witness: the mock body `{"status":"offline"}` decodes to the
classification `"offline"` and Status reports the offline error. -/
theorem status_error_iff_offline_witness :
    (⟨200, some (.obj [("status", Json.str "offline")]), none⟩ : HttpResponse).readErr = none
    ∧ unmarshalHealthPtr (some (.obj [("status", Json.str "offline")]))
        = .ok (some { Status := "offline" })
    ∧ (statusProcess ⟨200, some (.obj [("status", Json.str "offline")]), none⟩
        = some (.error offlineMsg)
       ↔ ({ Status := "offline" } : Health).Status = "offline") :=
  ⟨rfl, rfl,
   (status_error_iff_offline
      ⟨200, some (.obj [("status", Json.str "offline")]), none⟩
      { Status := "offline" } rfl rfl).1⟩

/-- C2 (code bug in `ots/ots.go:358-361`): when reading the response body
fails, `postRequest` only logs the failure and unmarshals the bytes that were
read; if those bytes happen to be valid JSON it returns a record and a nil
error, contradicting the claim that the read error is returned with a nil
record.  The second conjunct shows the evolved copy of the same routine
(which does return the read error) satisfies the claim at the same input. -/
theorem postRequest_read_error_ignored :
    postProcessOtsGo ⟨200, some (.obj [("ttl", Json.num 5)]), some "unexpected EOF"⟩
        = .ok (some { TTL := 5 })
    ∧ postProcess ⟨200, some (.obj [("ttl", Json.num 5)]), some "unexpected EOF"⟩
        = .error "unexpected EOF" :=
  ⟨rfl, rfl⟩

/-- C3 counterexample: the decoded record carries no "not present" state — a
response without a `ttl` member decodes to exactly the same record as one
with `ttl: 0`, and a response with `secret_key: ""` decodes to the same
record as one without the member, so absence is not distinguishable from a
genuine zero TTL or a genuine empty string. -/
theorem absent_field_equals_zero_field :
    unmarshalSecretPtr (some (.obj []))
        = unmarshalSecretPtr (some (.obj [("ttl", Json.num 0)]))
    ∧ unmarshalSecretPtr (some (.obj [("ttl", Json.num 0)])) = .ok (some {})
    ∧ unmarshalSecretPtr (some (.obj []))
        = unmarshalSecretPtr (some (.obj [("secret_key", Json.str "")])) :=
  ⟨rfl, rfl, rfl⟩

/-- C3 amended: a field absent in the wire response decodes to the Go zero
value of its type — for the TTL field, any object body none of whose keys
selects the `ttl` field decodes to a record with `TTL = 0`, indistinguishable
from an explicitly sent zero TTL. -/
theorem absent_ttl_decodes_to_zero (fs : List (String × Json)) (s : Secret)
    (hk : ∀ p ∈ fs, keyMatches p.1 "ttl" = false)
    (hd : unmarshalSecretPtr (some (.obj fs)) = .ok (some s)) :
    s.TTL = 0 := by
  simp only [unmarshalSecretPtr] at hd
  cases hD : decodeSecretObj fs with
  | error e => rw [hD] at hd; cases hd
  | ok s0 =>
    rw [hD] at hd
    cases hd
    exact decodeSecretFields_preserves_TTL fs {} s hk hD

/-- C3 amended, witness: a body carrying only `secret_key` decodes to a
record whose TTL is the zero value `0`. -/
theorem absent_ttl_decodes_to_zero_witness :
    (∀ p ∈ [("secret_key", Json.str "abc")], keyMatches p.1 "ttl" = false)
    ∧ unmarshalSecretPtr (some (.obj [("secret_key", Json.str "abc")]))
        = .ok (some { SecretKey := "abc" })
    ∧ ({ SecretKey := "abc" } : Secret).TTL = 0 :=
  ⟨by decide, rfl,
   absent_ttl_decodes_to_zero [("secret_key", Json.str "abc")] { SecretKey := "abc" }
     (by decide) rfl⟩

/-- C4: decoding the body
`{"secret_key":"abc123","ttl":60,"recipient":["a@b.com (obscured)"]}` (also
through Create's shared dispatch handling) yields a record with secret
identifier `"abc123"`, TTL `60` and a one-element recipient list. -/
theorem create_decode_concrete :
    unmarshalSecretPtr (some (.obj [("secret_key", Json.str "abc123"),
        ("ttl", Json.num 60), ("recipient", Json.arr [Json.str "a@b.com (obscured)"])]))
      = .ok (some { SecretKey := "abc123", TTL := 60, Recipient := ["a@b.com (obscured)"] })
    ∧ createProcess ⟨200, some (.obj [("secret_key", Json.str "abc123"),
          ("ttl", Json.num 60), ("recipient", Json.arr [Json.str "a@b.com (obscured)"])]),
          none⟩
      = .ok (some { SecretKey := "abc123", TTL := 60, Recipient := ["a@b.com (obscured)"] })
    ∧ ({ SecretKey := "abc123", TTL := 60,
         Recipient := ["a@b.com (obscured)"] } : Secret).Recipient.length = 1 :=
  ⟨rfl, rfl, rfl⟩

/-- C5: for every secret, passphrase, recipient and integer ttl, Create
issues one POST to the fixed base joined with `share`, whose body is the
URL-form encoding of exactly the fields secret, passphrase, ttl (decimal via
`itoa`) and recipient, with basic-auth credentials attached, and whose
response handling is exactly the shared dispatch decoding into a single
record.  The `sortByKey` conjunct exhibits the key order `Values.encode`
actually serializes. -/
theorem create_request_shape (c : Client) (secret passphrase recipient : String)
    (ttl : Int) :
    (createRequest c secret passphrase recipient ttl).method = "POST"
    ∧ (createRequest c secret passphrase recipient ttl).url
        = "https://onetimesecret.com/api/v1/share"
    ∧ (createRequest c secret passphrase recipient ttl).body
        = some (Values.encode [("secret", secret), ("passphrase", passphrase),
            ("ttl", itoa ttl), ("recipient", recipient)])
    ∧ sortByKey [("secret", secret), ("passphrase", passphrase),
          ("ttl", itoa ttl), ("recipient", recipient)]
        = [("passphrase", passphrase), ("recipient", recipient),
           ("secret", secret), ("ttl", itoa ttl)]
    ∧ (createRequest c secret passphrase recipient ttl).auth
        = some (c.Username, c.Token)
    ∧ (∀ resp, createProcess resp = postProcess resp) :=
  ⟨rfl, rfl, rfl, rfl, rfl, fun _ => rfl⟩

/-- C6: for every secretKey and passphrase, Retrieve issues a POST to the
route `secret/{secretKey}` whose form body contains exactly the fields
secret_key (the identifier again) and passphrase, and decodes the response
through the shared dispatch into a single record. -/
theorem retrieve_request_shape (c : Client) (secretKey passphrase : String) :
    (retrieveRequest c secretKey passphrase).method = "POST"
    ∧ (retrieveRequest c secretKey passphrase).url
        = "https://onetimesecret.com/api/v1/" ++ ("secret/" ++ secretKey)
    ∧ (retrieveRequest c secretKey passphrase).body
        = some (Values.encode [("secret_key", secretKey), ("passphrase", passphrase)])
    ∧ sortByKey [("secret_key", secretKey), ("passphrase", passphrase)]
        = [("passphrase", passphrase), ("secret_key", secretKey)]
    ∧ (retrieveRequest c secretKey passphrase).auth = some (c.Username, c.Token)
    ∧ (∀ resp, retrieveProcess resp = postProcess resp) :=
  ⟨rfl, rfl, rfl, rfl, rfl, fun _ => rfl⟩

/-- C7: encoding a SecretRecord to JSON and decoding the result back yields
a record equal to the original — every field value is reproduced exactly
(string, integer and boolean equality, recipient list element-for-element in
order). -/
theorem marshalSecret_roundtrip (s : Secret) :
    unmarshalSecretPtr (some (marshalSecret s)) = .ok (some s) := by
  have hobj : decodeSecretObj
      (emitStr "custid" s.CustomerID ++
      (emitStr "metadata_key" s.MetadataKey ++
      (emitStr "secret_key" s.SecretKey ++
      (emitStr "value" s.Value ++
      (emitStr "state" s.State ++
      (emitStrList "recipient" s.Recipient ++
      (emitInt "ttl" s.TTL ++
      (emitInt "metadata_ttl" s.MetadataTTL ++
      (emitInt "secret_ttl" s.SecretTTL ++
      (emitInt "created" s.Created ++
      (emitInt "updated" s.Updated ++
       emitBool "passphrase_required" s.PassphraseRequired))))))))))) = .ok s := by
    show decodeSecretFields {} _ = _
    rw [decodeFields_emit_custid _ _ _ rfl,
        decodeFields_emit_metadata_key _ _ _ rfl,
        decodeFields_emit_secret_key _ _ _ rfl,
        decodeFields_emit_value _ _ _ rfl,
        decodeFields_emit_state _ _ _ rfl,
        decodeFields_emit_recipient _ _ _ rfl,
        decodeFields_emit_ttl _ _ _ rfl,
        decodeFields_emit_metadata_ttl _ _ _ rfl,
        decodeFields_emit_secret_ttl _ _ _ rfl,
        decodeFields_emit_created _ _ _ rfl,
        decodeFields_emit_updated _ _ _ rfl,
        decodeFields_emit_passreq _ _ rfl]
  simp only [marshalSecret, unmarshalSecretPtr, hobj]

/-- C8: every public operation attaches basic-auth credentials taken from
the client's stored Username and Token to its request — including Status and
the GET listing call. -/
theorem all_operations_attach_basic_auth (c : Client)
    (secret passphrase recipient secretKey metadataKey : String) (ttl : Int) :
    (statusRequest c).auth = some (c.Username, c.Token)
    ∧ (createRequest c secret passphrase recipient ttl).auth = some (c.Username, c.Token)
    ∧ (generateRequest c recipient passphrase ttl).auth = some (c.Username, c.Token)
    ∧ (retrieveRequest c secretKey passphrase).auth = some (c.Username, c.Token)
    ∧ (retrieveMetadataRequest c metadataKey).auth = some (c.Username, c.Token)
    ∧ (burnRequest c metadataKey).auth = some (c.Username, c.Token)
    ∧ (retrieveRecentMetadataRequest c).auth = some (c.Username, c.Token) :=
  ⟨rfl, rfl, rfl, rfl, rfl, rfl, rfl⟩

/-- C9: a response body that is the JSON literal `null` makes the shared
dispatch routine — and hence Create, Generate, Retrieve, RetrieveMetadata and
Burn — return a nil record together with a nil error, for any status code. -/
theorem null_body_yields_nil_record_and_nil_error (code : Nat) :
    postProcess ⟨code, some Json.null, none⟩ = .ok none
    ∧ postProcessOtsGo ⟨code, some Json.null, none⟩ = .ok none
    ∧ createProcess ⟨code, some Json.null, none⟩ = .ok none
    ∧ generateProcess ⟨code, some Json.null, none⟩ = .ok none
    ∧ retrieveProcess ⟨code, some Json.null, none⟩ = .ok none
    ∧ retrieveMetadataProcess ⟨code, some Json.null, none⟩ = .ok none
    ∧ burnProcess ⟨code, some Json.null, none⟩ = .ok none :=
  ⟨rfl, rfl, rfl, rfl, rfl, rfl, rfl⟩

/-- C10: no operation inspects the HTTP status code — each response handler
returns the same result under any two status codes, and a response whose
body decodes as the expected shape is returned as success whatever the
status code (e.g. a 500 carrying a JSON object body, per the witness). -/
theorem status_code_never_inspected (code code2 : Nat) (b : Option Json)
    (re : Option String) (fs : List (String × Json)) (s : Secret)
    (xs : List Json) (l : List Secret)
    (h1 : decodeSecretObj fs = .ok s) (h2 : decodeSecretElems xs = .ok l) :
    postProcess ⟨code, b, re⟩ = postProcess ⟨code2, b, re⟩
    ∧ recentProcess ⟨code, b, re⟩ = recentProcess ⟨code2, b, re⟩
    ∧ statusProcess ⟨code, b, re⟩ = statusProcess ⟨code2, b, re⟩
    ∧ postProcess ⟨code, some (.obj fs), none⟩ = .ok (some s)
    ∧ recentProcess ⟨code, some (.arr xs), none⟩ = .ok (some l) := by
  refine ⟨rfl, rfl, rfl, ?_, ?_⟩
  · simp only [postProcess, unmarshalSecretPtr, h1]
  · simp only [recentProcess, unmarshalSecretsPtr, h2]

/-- C10 witness: a 500 response with the body `{"ttl":60}` is returned as a
normal record, and the listing call treats `[]` the same way. -/
theorem status_code_never_inspected_witness :
    decodeSecretObj [("ttl", Json.num 60)] = .ok { TTL := 60 }
    ∧ decodeSecretElems [] = .ok []
    ∧ postProcess ⟨500, some (.obj [("ttl", Json.num 60)]), none⟩
        = .ok (some { TTL := 60 }) :=
  ⟨rfl, rfl,
   (status_code_never_inspected 500 200 none none [("ttl", Json.num 60)] { TTL := 60 }
      [] [] rfl rfl).2.2.2.1⟩

end OTS
